import Mathlib

/-!
Verification of the DataGen synthetic-data generator (`src/add2.py`).

The source is a single-file Streamlit application.  Its pure computational
content (chunk stitching, CSV parsing outcomes, constraint-JSON loading,
metadata configuration, synthesizer selection, validation statistics) is
embedded below as executable Lean functions; Python strings are modelled as
lists of characters (`PyStr`), Python floats as rationals, pandas dataframes
as association lists of typed columns, and each Streamlit button handler as
a function from its inputs and the relevant session state to the new session
state together with a success (`Except.ok`) or error (`Except.error`)
outcome, mirroring `st.error` / uncaught exceptions.
-/

/-- Python strings, modelled as lists of characters. -/
abbrev PyStr := List Char

/-- Convenience injection from Lean string literals for concrete inputs. -/
def pyStr (s : String) : PyStr := s.toList

/-- Python `s.split(sep)` for a one-character separator (the source splits on
a newline and, for CSV rows, on a comma).  Like Python's `str.split`, the
result is never the empty list: splitting the empty string yields `[[]]`. -/
def pySplitOn (sep : Char) : PyStr → List PyStr
  | [] => [[]]
  | c :: rest =>
    if c = sep then [] :: pySplitOn sep rest
    else
      match pySplitOn sep rest with
      | [] => [[c]]
      | l :: ls => (c :: l) :: ls

/-- Python `sep.join(parts)` for a one-character separator. -/
def pyJoinOn (sep : Char) : List PyStr → PyStr
  | [] => []
  | [s] => s
  | s :: s2 :: rest => s ++ sep :: pyJoinOn sep (s2 :: rest)

theorem pySplitOn_ne_nil (sep : Char) (s : PyStr) : pySplitOn sep s ≠ [] := by
  induction s with
  | nil => simp [pySplitOn]
  | cons c rest ih =>
    by_cases h : c = sep
    · simp [pySplitOn, h]
    · simp only [pySplitOn, if_neg h]
      cases hh : pySplitOn sep rest with
      | nil => simp
      | cons l ls => simp

theorem pyJoinOn_pySplitOn (sep : Char) (s : PyStr) :
    pyJoinOn sep (pySplitOn sep s) = s := by
  induction s with
  | nil => rfl
  | cons c rest ih =>
    by_cases h : c = sep
    · subst h
      simp only [pySplitOn, if_pos rfl]
      cases hh : pySplitOn c rest with
      | nil => exact absurd hh (pySplitOn_ne_nil c rest)
      | cons l ls =>
        rw [hh] at ih
        simpa [pyJoinOn] using ih
    · simp only [pySplitOn, if_neg h]
      cases hh : pySplitOn sep rest with
      | nil => exact absurd hh (pySplitOn_ne_nil sep rest)
      | cons l ls =>
        rw [hh] at ih
        cases ls with
        | nil =>
          simp only [pyJoinOn] at ih ⊢
          rw [ih]
        | cons l2 ls2 =>
          simp only [pyJoinOn] at ih ⊢
          rw [← ih]
          simp

theorem pySplitOn_append (sep : Char) (x y : PyStr) (h : sep ∉ x) :
    pySplitOn sep (x ++ sep :: y) = x :: pySplitOn sep y := by
  induction x with
  | nil => simp [pySplitOn]
  | cons c x ih =>
    have hc : c ≠ sep := fun hcs => h (hcs ▸ List.mem_cons_self c x)
    have hx : sep ∉ x := fun hm => h (List.mem_cons_of_mem c hm)
    simp only [List.cons_append, pySplitOn, if_neg hc]
    rw [List.append_eq, ih hx]

theorem foldl_append_shift (g : PyStr → PyStr) (xs : List PyStr) :
    ∀ p q : PyStr,
      xs.foldl (fun acc x => acc ++ g x) (p ++ q)
        = p ++ xs.foldl (fun acc x => acc ++ g x) q := by
  induction xs with
  | nil => intro p q; simp
  | cons x xs ih =>
    intro p q
    simp only [List.foldl_cons, List.append_assoc, ih]

theorem pyJoinOn_cons_foldl (sep : Char) (l : List PyStr) :
    ∀ a : PyStr, pyJoinOn sep (a :: l) = l.foldl (fun acc x => acc ++ sep :: x) a := by
  induction l with
  | nil => intro a; rfl
  | cons x xs ih =>
    intro a
    have h1 : pyJoinOn sep (a :: x :: xs) = a ++ sep :: pyJoinOn sep (x :: xs) := rfl
    rw [h1, ih x]
    have h2 : (sep :: x : PyStr) = [sep] ++ x := rfl
    calc a ++ sep :: xs.foldl (fun acc y => acc ++ sep :: y) x
        = a ++ ([sep] ++ xs.foldl (fun acc y => acc ++ sep :: y) x) := rfl
      _ = a ++ xs.foldl (fun acc y => acc ++ sep :: y) ([sep] ++ x) := by
          rw [foldl_append_shift (fun y => sep :: y) xs [sep] x]
      _ = xs.foldl (fun acc y => acc ++ sep :: y) (a ++ ([sep] ++ x)) := by
          rw [foldl_append_shift (fun y => sep :: y) xs a ([sep] ++ x)]
      _ = xs.foldl (fun acc y => acc ++ sep :: y) (a ++ sep :: x) := by rw [← h2]

/-- Python `"\n".join(chunk.split("\n")[1:])` — the body of a generated chunk with
its first (header) line removed, from the stitching expression at
`src/add2.py:265`. -/
def dropHeaderLine (chunk : PyStr) : PyStr :=
  pyJoinOn '\n' (List.tail (pySplitOn '\n' chunk))

/-- Source line `full_data = "\n".join([chunks[0]] + ["\n".join(chunk.split("\n")[1:]) for
chunk in chunks[1:]])` (`src/add2.py:265`).  On an empty chunk list the source
raises `IndexError` at `chunks[0]`, modelled as `none`. -/
def stitchChunks : List PyStr → Option PyStr
  | [] => Option.none
  | c :: rest => Option.some (pyJoinOn '\n' (c :: rest.map dropHeaderLine))

/-- A parsed dataframe as produced by `pd.read_csv(StringIO(full_data))`:
a header row of column names and string-valued data rows. -/
structure Table where
  header : List PyStr
  rows : List (List PyStr)
deriving DecidableEq

/-- Model of `pd.read_csv(StringIO(s))` restricted to the outcomes the handlers depend
on.  The text is split into newline-separated lines, fully blank lines are
skipped (pandas `skip_blank_lines`), the first line is the header, and each
further line is a comma-separated row.  The parser establishes the table
width from the header *and the first data row*: a first data row with more
fields than the header is accepted, its extra leading fields becoming the
dataframe's index (pandas index-column inference), so the width is the
larger of the two counts.  Parsing fails (`None`, pandas raises) when there
are no lines at all (`EmptyDataError`) or when a later row exceeds the
established width (`ParserError: Expected N fields in line k, saw M`); rows
with fewer fields are padded (pandas fills `NaN`, modelled as the empty
cell). -/
def parseTable (s : PyStr) : Option Table :=
  let lines := (pySplitOn '\n' s).filter (fun l => decide (l ≠ []))
  match lines with
  | [] => Option.none
  | h :: rest =>
    let header := pySplitOn ',' h
    let rows := rest.map (fun l => pySplitOn ',' l)
    let n := match rows with
      | [] => header.length
      | r1 :: _ => max header.length r1.length
    if rows.all (fun r => decide (r.length ≤ n)) then
      Option.some ⟨header, rows.map (fun r => r ++ List.replicate (n - r.length) [])⟩
    else Option.none

/-- The chunk loop of the Generate Initial Dataset handler
(`src/add2.py:258-264`): each entry is the text returned by one
`generate_data_chunk` request (`Option.none` when the request raised, which
aborts the whole run uncaught).  An empty response string is falsy, so the
`if chunk_data:` guard silently drops it. -/
def collectChunks : List (Option PyStr) → Except String (List PyStr)
  | [] => Except.ok []
  | Option.none :: _ => Except.error "chunk request raised"
  | Option.some c :: rest =>
    match collectChunks rest with
    | Except.error e => Except.error e
    | Except.ok cs => Except.ok (if c = [] then cs else c :: cs)

/-- The Generate Initial Dataset button handler (`src/add2.py:246-271`),
from the chunk loop on: stitch the collected chunks and try to parse them.
`prev` is the current `st.session_state.generated_data`; the result pairs the
new session state with the handler outcome (`Except.error` models both an
`st.error` message and an uncaught exception, neither of which assigns
`generated_data`). -/
def generateInitialDataset (chunkResults : List (Option PyStr)) (prev : Option Table) :
    Option Table × Except String Table :=
  match collectChunks chunkResults with
  | Except.error e => (prev, Except.error e)
  | Except.ok chunks =>
    match stitchChunks chunks with
    | Option.none => (prev, Except.error "IndexError: chunk list is empty")
    | Option.some full =>
      match parseTable full with
      | Option.some t => (Option.some t, Except.ok t)
      | Option.none => (prev, Except.error "Error parsing generated data")

theorem collectChunks_of_mem_none (rr : List (Option PyStr)) (h : Option.none ∈ rr) :
    collectChunks rr = Except.error "chunk request raised" := by
  induction rr with
  | nil => cases h
  | cons o rest ih =>
    cases o with
    | none => rfl
    | some c =>
      have hr : Option.none ∈ rest := by
        rcases List.mem_cons.mp h with h1 | h1
        · exact absurd h1.symm (Option.some_ne_none c)
        · exact h1
      simp only [collectChunks, ih hr]

/-- C4: for every non-empty ordered sequence of generated text chunks, the
stitched table text keeps the first chunk in full (including its header line)
and appends, in request order, every subsequent chunk with exactly its first
line (the header) removed; removing the first line of a chunk that decomposes
as a newline-free header line followed by a newline and a body yields exactly
that body. -/
theorem C4_stitching_keeps_first_header_only
    (c : PyStr) (rest : List PyStr) (hline body : PyStr) (hnl : '\n' ∉ hline) :
    stitchChunks (c :: rest)
      = Option.some (rest.foldl (fun acc ch => acc ++ '\n' :: dropHeaderLine ch) c)
    ∧ dropHeaderLine (hline ++ '\n' :: body) = body := by
  constructor
  · simp only [stitchChunks, pyJoinOn_cons_foldl, List.foldl_map]
  · simp only [dropHeaderLine, pySplitOn_append '\n' hline body hnl, List.tail_cons,
      pyJoinOn_pySplitOn]

theorem C4_stitching_keeps_first_header_only_witness :
    stitchChunks [pyStr "a,b\n1,2", pyStr "a,b\n3,4"]
      = Option.some ([pyStr "a,b\n3,4"].foldl
          (fun acc ch => acc ++ '\n' :: dropHeaderLine ch) (pyStr "a,b\n1,2"))
    ∧ dropHeaderLine (pyStr "a,b" ++ '\n' :: pyStr "3,4") = pyStr "3,4" :=
  C4_stitching_keeps_first_header_only (pyStr "a,b\n1,2") [pyStr "a,b\n3,4"]
    (pyStr "a,b") (pyStr "3,4") (by decide)

/-- C1 (amended): if any per-chunk generation request raises, or the stitched
chunk text fails to parse as a table, the Generate Initial Dataset handler
reports an error and leaves the stored dataset unchanged; there is no offline
fallback, and a failing run never replaces the stored dataset. -/
theorem C1_failed_generation_reports_error_and_keeps_state
    (rr : List (Option PyStr)) (prev : Option Table) :
    (Option.none ∈ rr →
      generateInitialDataset rr prev = (prev, Except.error "chunk request raised"))
    ∧ (∀ chunks full, collectChunks rr = Except.ok chunks →
        stitchChunks chunks = Option.some full → parseTable full = Option.none →
        generateInitialDataset rr prev = (prev, Except.error "Error parsing generated data"))
    ∧ (∀ e, (generateInitialDataset rr prev).2 = Except.error e →
        (generateInitialDataset rr prev).1 = prev) := by
  refine ⟨?_, ?_, ?_⟩
  · intro h
    simp only [generateInitialDataset, collectChunks_of_mem_none rr h]
  · intro chunks full hc hs hp
    simp only [generateInitialDataset, hc, hs, hp]
  · intro e
    unfold generateInitialDataset
    split
    · simp
    · split
      · simp
      · split <;> simp

/-- C1 counterexample: a single chunk whose header and first data row
establish a width of two fields while its second data row has three fails to
parse (`pd.read_csv` raises `ParserError: Expected 2 fields in line 3, saw
3`); the handler then reports the parse error and keeps the previous (empty)
session state — it does not fall back to offline mode and return an
offline-generated dataframe, as the claim states. -/
theorem C1_counterexample :
    generateInitialDataset [Option.some (pyStr "a,b\n1,2\n1,2,3")] Option.none
      = (Option.none, Except.error "Error parsing generated data") := by rfl

theorem C1_failed_generation_reports_error_and_keeps_state_witness :
    generateInitialDataset [Option.none] (Option.some ⟨[pyStr "a"], [[pyStr "1"]]⟩)
      = (Option.some ⟨[pyStr "a"], [[pyStr "1"]]⟩, Except.error "chunk request raised") :=
  (C1_failed_generation_reports_error_and_keeps_state [Option.none]
    (Option.some ⟨[pyStr "a"], [[pyStr "1"]]⟩)).1 (by decide)

/-- Outcome of `exec(st.session_state.transformation_code, {}, local_vars)`
(`src/add2.py:393`) on the dataframe bound to `df` in `local_vars`.  The
handler passes a *copy* of the stored dataframe, so in-place mutation inside
`exec` cannot reach the session state and the run is fully described by
whether `exec` raised, finished without a variable named `df`, or finished
with `df` bound to some dataframe. -/
inductive ExecOutcome where
  | raised (msg : String)
  | noDf
  | producedDf (df : Table)

/-- The Apply Transformation Code button handler (`src/add2.py:388-403`).
`run` is the semantics of the stored transformation code under `exec`
(an oracle: the code is model-generated free-form Python).  `data` is the
current `st.session_state.generated_data`; the result is the new stored
dataframe together with the success flag (`false` models the `st.error`
branches, both of which roll back to `original_data`, a pre-execution
copy). -/
def applyTransformationCode (run : Table → ExecOutcome) (data : Table) : Table × Bool :=
  match run data with
  | ExecOutcome.producedDf d => (d, true)
  | ExecOutcome.noDf => (data, false)
  | ExecOutcome.raised _ => (data, false)

/-- C10: applying a transformation to the full dataset is atomic — if the
transformation code raises, or completes without producing a dataframe named
`df`, the stored dataset is restored to its exact pre-transformation value,
and the dataset is replaced exactly when execution succeeds and yields
`df`. -/
theorem C10_apply_transformation_is_atomic (run : Table → ExecOutcome) (data : Table) :
    (∀ d, run data = ExecOutcome.producedDf d → applyTransformationCode run data = (d, true))
    ∧ (run data = ExecOutcome.noDf → applyTransformationCode run data = (data, false))
    ∧ (∀ m, run data = ExecOutcome.raised m → applyTransformationCode run data = (data, false)) := by
  refine ⟨fun d h => ?_, fun h => ?_, fun m h => ?_⟩ <;>
    simp only [applyTransformationCode, h]

/-- A one-column, one-row example dataframe for concrete instantiations. -/
def tableA : Table := ⟨[pyStr "a"], [[pyStr "1"]]⟩

/-- A second dataframe, different from `tableA`. -/
def tableB : Table := ⟨[pyStr "a"], [[pyStr "2"]]⟩

theorem C10_apply_transformation_is_atomic_witness :
    applyTransformationCode (fun _ => ExecOutcome.raised "NameError") tableA
      = (tableA, false) :=
  (C10_apply_transformation_is_atomic (fun _ => ExecOutcome.raised "NameError") tableA).2.2
    "NameError" rfl

/-- C2 counterexample: the Apply Transformation Code handler passes the
model-generated code to `exec`; when that execution yields a dataframe `df`
different from the input, the stored dataset is *replaced*, so the
transformation step does not return the dataset unchanged and the feature is
not disabled. -/
theorem C2_counterexample :
    (applyTransformationCode (fun _ => ExecOutcome.producedDf tableB) tableA).1 ≠ tableA := by
  decide

/-- C2 (amended): the data-transformation feature executes the model-generated
transformation code via `exec` on a copy of the dataset; whenever execution
completes and yields a dataframe named `df`, the stored dataset is replaced by
that result (it is left unchanged only when execution raises or yields no
`df`). -/
theorem C2_transformation_replaces_dataset_with_exec_result
    (run : Table → ExecOutcome) (data : Table) (d : Table)
    (h : run data = ExecOutcome.producedDf d) :
    (applyTransformationCode run data).1 = d := by
  simp only [applyTransformationCode, h]

theorem C2_transformation_replaces_dataset_with_exec_result_witness :
    (applyTransformationCode (fun _ => ExecOutcome.producedDf tableB) tableA).1 = tableB :=
  C2_transformation_replaces_dataset_with_exec_result
    (fun _ => ExecOutcome.producedDf tableB) tableA tableB rfl

/-- The code-fence marker, three backticks. -/
def fenceStr : PyStr := "```".toList

/-- Python `s.startswith(t)`. -/
def pyStartsWith (s t : PyStr) : Bool := decide (s.take t.length = t)

/-- Python `s.endswith(t)`. -/
def pyEndsWith (s t : PyStr) : Bool := decide (s.drop (s.length - t.length) = t)

/-- The suffix of `s` after its first newline, if `s` contains one; used to
model Python `s.split("\n", 1)[-1]`, which is `s` itself when there is no
newline. -/
def afterFirstNl : PyStr → Option PyStr
  | [] => Option.none
  | c :: rest => if c = '\n' then Option.some rest else afterFirstNl rest

/-- The part of `s` before its last newline, if `s` contains one; used to
model Python `s.rsplit("\n", 1)[0]`, which is `s` itself when there is no
newline. -/
def beforeLastNl : PyStr → Option PyStr
  | [] => Option.none
  | c :: rest =>
    match beforeLastNl rest with
    | Option.some r => Option.some (c :: r)
    | Option.none => if c = '\n' then Option.some [] else Option.none

/-- The fence-stripping step of `generate_value_constraints`
(`src/add2.py:424-427`): if the response starts with three backticks, drop
its first line (`split("\n", 1)[-1]`); if the result then ends with three
backticks, drop its last line (`rsplit("\n", 1)[0]`). -/
def stripFences (s : PyStr) : PyStr :=
  let s1 := if pyStartsWith s fenceStr then (afterFirstNl s).getD s else s
  if pyEndsWith s1 fenceStr then (beforeLastNl s1).getD s1 else s1

theorem afterFirstNl_append (x y : PyStr) (h : '\n' ∉ x) :
    afterFirstNl (x ++ '\n' :: y) = Option.some y := by
  induction x with
  | nil => simp [afterFirstNl]
  | cons c x ih =>
    have hc : c ≠ '\n' := fun hcs => h (hcs ▸ List.mem_cons_self c x)
    have hx : '\n' ∉ x := fun hm => h (List.mem_cons_of_mem c hm)
    simp only [List.cons_append, afterFirstNl, if_neg hc]
    rw [List.append_eq, ih hx]

theorem beforeLastNl_of_not_mem (y : PyStr) (h : '\n' ∉ y) :
    beforeLastNl y = Option.none := by
  induction y with
  | nil => rfl
  | cons c y ih =>
    have hc : c ≠ '\n' := fun hcs => h (hcs ▸ List.mem_cons_self c y)
    have hy : '\n' ∉ y := fun hm => h (List.mem_cons_of_mem c hm)
    simp only [beforeLastNl, ih hy, if_neg hc]

theorem beforeLastNl_append (x y : PyStr) (h : '\n' ∉ y) :
    beforeLastNl (x ++ '\n' :: y) = Option.some x := by
  induction x with
  | nil => simp [beforeLastNl, beforeLastNl_of_not_mem y h]
  | cons c x ih =>
    simp only [List.cons_append, beforeLastNl]
    rw [List.append_eq, ih]

/-- A parsed JSON value, as produced by `json.loads`. -/
inductive Json where
  | null
  | bool (b : Bool)
  | num (q : ℚ)
  | str (s : PyStr)
  | arr (xs : List Json)
  | obj (kvs : List (PyStr × Json))

/-- Skip JSON whitespace. -/
def skipWs : PyStr → PyStr
  | [] => []
  | c :: rest =>
    if c = ' ' ∨ c = '\n' ∨ c = '\t' ∨ c = '\r' then skipWs rest else c :: rest

/-- Numeric value of a digit character. -/
def digitVal (c : Char) : ℕ := c.toNat - '0'.toNat

/-- Take a maximal run of leading decimal digits. -/
def takeDigits : PyStr → List Char × PyStr
  | [] => ([], [])
  | c :: rest =>
    if c.isDigit then
      match takeDigits rest with
      | (ds, r) => (c :: ds, r)
    else ([], c :: rest)

/-- Value of a digit run. -/
def natOfDigits (ds : List Char) : ℕ := ds.foldl (fun n c => 10 * n + digitVal c) 0

/-- Parse a JSON number (optional minus, digits, optional fraction; exponents
are outside the modelled subset and rejected as unparsed trailing input). -/
def parseNumber (s : PyStr) : Option (ℚ × PyStr) :=
  let (neg, s1) := match s with
    | '-' :: r => (true, r)
    | _ => (false, s)
  match takeDigits s1 with
  | ([], _) => Option.none
  | (ds, r) =>
    let ip : ℚ := (natOfDigits ds : ℚ)
    match r with
    | '.' :: r2 =>
      match takeDigits r2 with
      | ([], _) => Option.none
      | (fs, r3) =>
        let q := ip + (natOfDigits fs : ℚ) / ((10 : ℚ) ^ fs.length)
        Option.some (if neg then -q else q, r3)
    | _ => Option.some (if neg then -ip else ip, r)

/-- Take the characters of a JSON string literal after the opening quote, up
to the closing quote.  Escape sequences are outside the modelled subset and
rejected. -/
def takeStringChars : PyStr → Option (PyStr × PyStr)
  | [] => Option.none
  | c :: rest =>
    if c = '"' then Option.some ([], rest)
    else if c = '\\' then Option.none
    else
      match takeStringChars rest with
      | Option.some (cs, r) => Option.some (c :: cs, r)
      | Option.none => Option.none

/-- Parsing mode: a single value, the members of an object (after `{` and any
first key), or the items of an array. -/
inductive PMode where
  | val
  | members
  | items

/-- Intermediate parse result for `parseJ`. -/
inductive PRes where
  | v (j : Json)
  | kvs (l : List (PyStr × Json))
  | items (l : List Json)

/-- Fuel-indexed recursive-descent parser behind `json_loads` (structural in
the fuel so that concrete runs reduce in the kernel). -/
def parseJ : ℕ → PMode → PyStr → Option (PRes × PyStr)
  | 0, _, _ => Option.none
  | f + 1, PMode.val, s =>
    match skipWs s with
    | [] => Option.none
    | c :: rest =>
      if c = '\x7b' then
        match skipWs rest with
        | '\x7d' :: r2 => Option.some (PRes.v (Json.obj []), r2)
        | r2 =>
          match parseJ f PMode.members r2 with
          | Option.some (PRes.kvs kvs, r3) => Option.some (PRes.v (Json.obj kvs), r3)
          | _ => Option.none
      else if c = '[' then
        match skipWs rest with
        | ']' :: r2 => Option.some (PRes.v (Json.arr []), r2)
        | r2 =>
          match parseJ f PMode.items r2 with
          | Option.some (PRes.items xs, r3) => Option.some (PRes.v (Json.arr xs), r3)
          | _ => Option.none
      else if c = '"' then
        match takeStringChars rest with
        | Option.some (cs, r2) => Option.some (PRes.v (Json.str cs), r2)
        | Option.none => Option.none
      else if c = 't' then
        match rest with
        | 'r' :: 'u' :: 'e' :: r2 => Option.some (PRes.v (Json.bool true), r2)
        | _ => Option.none
      else if c = 'f' then
        match rest with
        | 'a' :: 'l' :: 's' :: 'e' :: r2 => Option.some (PRes.v (Json.bool false), r2)
        | _ => Option.none
      else if c = 'n' then
        match rest with
        | 'u' :: 'l' :: 'l' :: r2 => Option.some (PRes.v Json.null, r2)
        | _ => Option.none
      else
        match parseNumber (c :: rest) with
        | Option.some (q, r2) => Option.some (PRes.v (Json.num q), r2)
        | Option.none => Option.none
  | f + 1, PMode.members, s =>
    match skipWs s with
    | '"' :: rest =>
      match takeStringChars rest with
      | Option.some (key, r2) =>
        match skipWs r2 with
        | ':' :: r3 =>
          match parseJ f PMode.val r3 with
          | Option.some (PRes.v v, r4) =>
            match skipWs r4 with
            | ',' :: r5 =>
              match parseJ f PMode.members r5 with
              | Option.some (PRes.kvs kvs, r6) => Option.some (PRes.kvs ((key, v) :: kvs), r6)
              | _ => Option.none
            | '\x7d' :: r5 => Option.some (PRes.kvs [(key, v)], r5)
            | _ => Option.none
          | _ => Option.none
        | _ => Option.none
      | Option.none => Option.none
    | _ => Option.none
  | f + 1, PMode.items, s =>
    match parseJ f PMode.val s with
    | Option.some (PRes.v v, r) =>
      match skipWs r with
      | ',' :: r2 =>
        match parseJ f PMode.items r2 with
        | Option.some (PRes.items xs, r3) => Option.some (PRes.items (v :: xs), r3)
        | _ => Option.none
      | ']' :: r2 => Option.some (PRes.items [v], r2)
      | _ => Option.none
    | _ => Option.none

/-- Model of `json.loads` (`src/add2.py:436` and `src/add2.py:502`), restricted to a
faithful subset of the JSON grammar: objects, arrays, strings without escape
sequences, numbers without exponents, `true`/`false`/`null`, and whitespace.
Parsing succeeds iff a single value consumes the whole text.  Every concrete
input appearing in the theorems below is accepted/rejected exactly as
Python's `json.loads` would. -/
def json_loads (s : PyStr) : Option Json :=
  match parseJ (s.length + 1) PMode.val s with
  | Option.some (PRes.v j, rest) => if skipWs rest = [] then Option.some j else Option.none
  | _ => Option.none

/-- Source `validate_json_format` (`src/add2.py:430-440`): `True` iff `json.loads`
succeeds (on failure the source shows an `st.error` and returns `False`). -/
def validate_json_format (json_text : PyStr) : Bool := (json_loads json_text).isSome

/-- The `constraints = json.loads(constraints_json)` step of the Train Custom
Model handler (`src/add2.py:502`): inside the handler's `try`, a parse
failure raises `json.JSONDecodeError`, is caught at `src/add2.py:514`, and
the whole training run is reported as failed — the run never proceeds with
any constraint mapping. -/
def loadConstraints (constraints_json : PyStr) : Except String Json :=
  match json_loads constraints_json with
  | Option.some j => Except.ok j
  | Option.none => Except.error "JSONDecodeError"

/-- A pandas column, keeping only what the validator observes: numeric
storage (values as rationals) or non-numeric object storage (string
values). -/
inductive ColData where
  | numeric (vals : List ℚ)
  | strings (vals : List PyStr)
deriving DecidableEq

/-- A dataframe for the validation/configuration layer: ordered association
list from column name to column data. -/
abbrev Frame := List (String × ColData)

/-- Model of `pd.api.types.is_numeric_dtype` on a column. -/
def isNumericDtype : ColData → Bool
  | ColData.numeric _ => true
  | ColData.strings _ => false

/-- A Python value stored in the validation report: `None`, a float `NaN`, or
an ordinary float (modelled as a rational). -/
inductive PyVal where
  | none
  | nan
  | num (q : ℚ)
deriving DecidableEq

/-- Model of pandas `Series.mean()`: `NaN` on an empty column, else the arithmetic mean. -/
def pandasMean (xs : List ℚ) : PyVal :=
  if xs.length = 0 then PyVal.nan else PyVal.num (xs.sum / (xs.length : ℚ))

/-- Model of pandas `Series.std()`, which computes the sample standard deviation (`ddof = 1`; `NaN`
for fewer than two values), i.e. the square root of the quantity below.  The
square root of a rational is irrational in general, so the model records the
sample *variance* (the std's square — the two are in strictly monotone
bijection on nonnegative values); every claim treated here depends only on
whether the statistic is present, never on its magnitude. -/
def sampleVariance (xs : List ℚ) : PyVal :=
  if xs.length < 2 then PyVal.nan
  else
    PyVal.num
      (((xs.map (fun x => (x - xs.sum / (xs.length : ℚ)) ^ 2)).sum) / ((xs.length : ℚ) - 1))

/-- Apply a statistic to a column under the source's
`... if pd.api.types.is_numeric_dtype(data[column]) else None` guard
(`src/add2.py:198-201`). -/
def statOf (f : List ℚ → PyVal) : ColData → PyVal
  | ColData.numeric vs => f vs
  | ColData.strings _ => PyVal.none

/-- One entry of the constraints mapping: optional numeric bounds, the shape
of the constraint artifact `\x7b<field>: \x7bmin?, max?\x7d\x7d`. -/
structure Constraint where
  min : Option ℚ
  max : Option ℚ
deriving DecidableEq

/-- One column's entry in `validation_results` (`src/add2.py:197-202`). -/
structure ColReport where
  original_mean : PyVal
  synthetic_mean : PyVal
  original_std : PyVal
  synthetic_std : PyVal
  constraint_violations : ℕ
deriving DecidableEq

/-- Source line `(synthetic_data[column] < constraints[column]['min']).sum()`
(`src/add2.py:206`): on a numeric column, the number of values strictly below
the bound; on a non-numeric column pandas raises `TypeError` (`<` between
`str` and a number), which propagates out of the whole validator. -/
def countBelow : ColData → ℚ → Except String ℕ
  | ColData.numeric vs, m => Except.ok (vs.countP (fun v => decide (v < m)))
  | ColData.strings _, _ => Except.error "TypeError"

/-- Source line `(synthetic_data[column] > constraints[column]['max']).sum()`
(`src/add2.py:209`), symmetric to `countBelow`. -/
def countAbove : ColData → ℚ → Except String ℕ
  | ColData.numeric vs, m => Except.ok (vs.countP (fun v => decide (m < v)))
  | ColData.strings _, _ => Except.error "TypeError"

/-- One iteration of the `validate_synthetic_data` loop body
(`src/add2.py:197-210`): build the statistics entry, then add the `min` and
`max` violation counts when the column has a constraint. -/
def mkEntry (ocol scol : ColData) (c : Option Constraint) : Except String ColReport :=
  let base : ColReport :=
    ⟨statOf pandasMean ocol, statOf pandasMean scol,
     statOf sampleVariance ocol, statOf sampleVariance scol, 0⟩
  match c with
  | Option.none => Except.ok base
  | Option.some cc =>
    match (match cc.min with
           | Option.some m => countBelow scol m
           | Option.none => Except.ok 0) with
    | Except.error e => Except.error e
    | Except.ok b =>
      match (match cc.max with
             | Option.some m => countAbove scol m
             | Option.none => Except.ok 0) with
      | Except.error e => Except.error e
      | Except.ok a =>
        Except.ok
          ⟨base.original_mean, base.synthetic_mean,
           base.original_std, base.synthetic_std, b + a⟩

/-- The loop of `validate_synthetic_data` over the original columns in
order.  `synthetic_data[column]` on a missing column raises `KeyError`; any
raised exception aborts the whole loop (there is no per-column handler in
the source). -/
def validateGo (syn : Frame) (constraints : List (String × Constraint)) :
    List (String × ColData) → Except String (List (String × ColReport))
  | [] => Except.ok []
  | (name, ocol) :: rest =>
    match List.lookup name syn with
    | Option.none => Except.error "KeyError"
    | Option.some scol =>
      match mkEntry ocol scol (List.lookup name constraints) with
      | Except.error e => Except.error e
      | Except.ok entry =>
        match validateGo syn constraints rest with
        | Except.error e => Except.error e
        | Except.ok r => Except.ok ((name, entry) :: r)

/-- Source `validate_synthetic_data` (`src/add2.py:194-211`).  The Python dict
`validation_results` is modelled as the ordered association list of the
per-column entries (the original columns are pairwise distinct in a
dataframe, which the theorems assume explicitly where needed). -/
def validate_synthetic_data (original_data synthetic_data : Frame)
    (constraints : List (String × Constraint)) :
    Except String (List (String × ColReport)) :=
  validateGo synthetic_data constraints original_data

/-- The number of synthetic values strictly below the declared `min`, `0`
when the `min` bound or the whole constraint entry is absent. -/
def minViolations (vals : List ℚ) : Option Constraint → ℕ
  | Option.some cc =>
    match cc.min with
    | Option.some m => vals.countP (fun v => decide (v < m))
    | Option.none => 0
  | Option.none => 0

/-- The number of synthetic values strictly above the declared `max`, `0`
when the `max` bound or the whole constraint entry is absent. -/
def maxViolations (vals : List ℚ) : Option Constraint → ℕ
  | Option.some cc =>
    match cc.max with
    | Option.some m => vals.countP (fun v => decide (m < v))
    | Option.none => 0
  | Option.none => 0

/-- Whether a single value violates the declared `min` bound. -/
def violatesMin (c : Option Constraint) (v : ℚ) : Bool :=
  match c with
  | Option.some cc =>
    match cc.min with
    | Option.some m => decide (v < m)
    | Option.none => false
  | Option.none => false

/-- Whether a single value violates the declared `max` bound. -/
def violatesMax (c : Option Constraint) (v : ℚ) : Bool :=
  match c with
  | Option.some cc =>
    match cc.max with
    | Option.some m => decide (m < v)
    | Option.none => false
  | Option.none => false

theorem mkEntry_numeric (ocol : ColData) (vals : List ℚ) (c : Option Constraint) :
    mkEntry ocol (ColData.numeric vals) c
      = Except.ok
          ⟨statOf pandasMean ocol, pandasMean vals,
           statOf sampleVariance ocol, sampleVariance vals,
           minViolations vals c + maxViolations vals c⟩ := by
  cases c with
  | none => simp [mkEntry, minViolations, maxViolations, statOf]
  | some cc =>
    cases cc with
    | mk mn mx =>
      cases mn <;> cases mx <;>
        simp [mkEntry, minViolations, maxViolations, statOf, countBelow, countAbove]

theorem mkEntry_ok_stats (ocol scol : ColData) (c : Option Constraint) (e : ColReport)
    (h : mkEntry ocol scol c = Except.ok e) :
    e.original_mean = statOf pandasMean ocol
    ∧ e.synthetic_mean = statOf pandasMean scol
    ∧ e.original_std = statOf sampleVariance ocol
    ∧ e.synthetic_std = statOf sampleVariance scol := by
  cases c with
  | none =>
    simp only [mkEntry, Except.ok.injEq] at h
    subst h
    exact ⟨rfl, rfl, rfl, rfl⟩
  | some cc =>
    simp only [mkEntry] at h
    cases hb : (match cc.min with
                | Option.some m => countBelow scol m
                | Option.none => Except.ok 0) with
    | error e2 => rw [hb] at h; exact absurd h (by simp)
    | ok b =>
      rw [hb] at h
      cases ha : (match cc.max with
                  | Option.some m => countAbove scol m
                  | Option.none => Except.ok 0) with
      | error e2 => rw [ha] at h; exact absurd h (by simp)
      | ok a =>
        rw [ha] at h
        simp only [Except.ok.injEq] at h
        subst h
        exact ⟨rfl, rfl, rfl, rfl⟩

theorem mkEntry_strings_min_error (ocol : ColData) (ss : List PyStr) (cc : Constraint)
    (m : ℚ) (hm : cc.min = Option.some m) :
    mkEntry ocol (ColData.strings ss) (Option.some cc) = Except.error "TypeError" := by
  simp [mkEntry, hm, countBelow]

theorem validateGo_ok_lookup (syn : Frame) (cs : List (String × Constraint)) :
    ∀ (l : List (String × ColData)) (r : List (String × ColReport)),
      (l.map Prod.fst).Nodup → validateGo syn cs l = Except.ok r →
      ∀ name ocol, (name, ocol) ∈ l →
        ∃ scol e, List.lookup name syn = Option.some scol
          ∧ mkEntry ocol scol (List.lookup name cs) = Except.ok e
          ∧ List.lookup name r = Option.some e := by
  intro l
  induction l with
  | nil => intro r _ _ name ocol h; cases h
  | cons p rest ih =>
    intro r hnd hok name ocol hmem
    obtain ⟨a, o⟩ := p
    simp only [validateGo] at hok
    cases hsyn : List.lookup a syn with
    | none => simp [hsyn] at hok
    | some scol0 =>
      simp only [hsyn] at hok
      cases hmk : mkEntry o scol0 (List.lookup a cs) with
      | error e2 => simp [hmk] at hok
      | ok e0 =>
        simp only [hmk] at hok
        cases hrest : validateGo syn cs rest with
        | error e2 => simp [hrest] at hok
        | ok r2 =>
          simp only [hrest, Except.ok.injEq] at hok
          subst hok
          have hnd2 : (rest.map Prod.fst).Nodup := (List.nodup_cons.mp hnd).2
          have hnotmem : a ∉ rest.map Prod.fst := (List.nodup_cons.mp hnd).1
          rcases List.mem_cons.mp hmem with heq | hmem2
          · injection heq with h1 h2
            subst h1; subst h2
            refine ⟨scol0, e0, hsyn, hmk, ?_⟩
            simp [List.lookup]
          · have hne : name ≠ a := by
              intro hn
              subst hn
              exact hnotmem (List.mem_map_of_mem Prod.fst hmem2)
            obtain ⟨scol, e, h1, h2, h3⟩ := ih r2 hnd2 hrest name ocol hmem2
            refine ⟨scol, e, h1, h2, ?_⟩
            simpa [List.lookup, beq_eq_false_iff_ne.mpr hne] using h3

theorem validateGo_ok_keys (syn : Frame) (cs : List (String × Constraint)) :
    ∀ (l : List (String × ColData)) (r : List (String × ColReport)),
      validateGo syn cs l = Except.ok r → r.map Prod.fst = l.map Prod.fst := by
  intro l
  induction l with
  | nil =>
    intro r hok
    simp only [validateGo, Except.ok.injEq] at hok
    subst hok
    rfl
  | cons p rest ih =>
    intro r hok
    obtain ⟨a, o⟩ := p
    simp only [validateGo] at hok
    cases hsyn : List.lookup a syn with
    | none => simp [hsyn] at hok
    | some scol0 =>
      simp only [hsyn] at hok
      cases hmk : mkEntry o scol0 (List.lookup a cs) with
      | error e2 => simp [hmk] at hok
      | ok e0 =>
        simp only [hmk] at hok
        cases hrest : validateGo syn cs rest with
        | error e2 => simp [hrest] at hok
        | ok r2 =>
          simp only [hrest, Except.ok.injEq] at hok
          subst hok
          simp [ih r2 hrest]

theorem lookup_isSome_of_mem_keys {β : Type} (name : String) :
    ∀ (r : List (String × β)), name ∈ r.map Prod.fst → ∃ e, List.lookup name r = Option.some e := by
  intro r
  induction r with
  | nil => intro h; cases h
  | cons p rest ih =>
    intro h
    obtain ⟨k, v⟩ := p
    by_cases hk : name = k
    · subst hk
      exact ⟨v, by simp [List.lookup]⟩
    · have : name ∈ rest.map Prod.fst := by
        rcases List.mem_cons.mp h with h1 | h1
        · exact absurd h1 hk
        · exact h1
      obtain ⟨e, he⟩ := ih this
      exact ⟨e, by simpa [List.lookup, beq_eq_false_iff_ne.mpr hk] using he⟩

theorem validateGo_error_of_bad_column (syn : Frame) (cs : List (String × Constraint)) :
    ∀ (l : List (String × ColData)) (name : String) (ocol : ColData) (ss : List PyStr)
      (cc : Constraint) (m : ℚ),
      (name, ocol) ∈ l →
      List.lookup name syn = Option.some (ColData.strings ss) →
      List.lookup name cs = Option.some cc → cc.min = Option.some m →
      ∃ e, validateGo syn cs l = Except.error e := by
  intro l
  induction l with
  | nil => intro name ocol ss cc m h; cases h
  | cons p rest ih =>
    intro name ocol ss cc m hmem hsyn hcs hm
    obtain ⟨a, o⟩ := p
    rcases List.mem_cons.mp hmem with heq | hmem2
    · injection heq with h1 h2
      subst h1; subst h2
      refine ⟨"TypeError", ?_⟩
      simp [validateGo, hsyn, hcs, mkEntry_strings_min_error ocol ss cc m hm]
    · obtain ⟨e, he⟩ := ih name ocol ss cc m hmem2 hsyn hcs hm
      cases hs : List.lookup a syn with
      | none => exact ⟨"KeyError", by simp [validateGo, hs]⟩
      | some scol =>
        cases hmk : mkEntry o scol (List.lookup a cs) with
        | error e2 => exact ⟨e2, by simp [validateGo, hs, hmk]⟩
        | ok e0 => exact ⟨e, by simp [validateGo, hs, hmk, he]⟩

/-- C7 (amended): every original column receives an entry whenever the report
is produced, but a per-column computation failure (e.g. a `TypeError` from
comparing a non-numeric synthetic column against a numeric bound, or a
`KeyError` from a column missing in the synthetic data) raises and aborts the
*whole* report — no partial report with absent fields is returned. -/
theorem C7_per_column_failure_aborts_whole_report :
    (∀ (orig syn : Frame) (cs : List (String × Constraint)) r,
        validate_synthetic_data orig syn cs = Except.ok r →
        ∀ name ocol, (name, ocol) ∈ orig → ∃ e, List.lookup name r = Option.some e)
    ∧ (∀ (orig syn : Frame) (cs : List (String × Constraint)) name ocol ss cc m,
        (name, ocol) ∈ orig →
        List.lookup name syn = Option.some (ColData.strings ss) →
        List.lookup name cs = Option.some cc → cc.min = Option.some m →
        ∃ e, validate_synthetic_data orig syn cs = Except.error e) := by
  constructor
  · intro orig syn cs r hok name ocol hmem
    have hkeys := validateGo_ok_keys syn cs orig r hok
    apply lookup_isSome_of_mem_keys
    rw [hkeys]
    exact List.mem_map_of_mem Prod.fst hmem
  · intro orig syn cs name ocol ss cc m hmem hsyn hcs hm
    exact validateGo_error_of_bad_column syn cs orig name ocol ss cc m hmem hsyn hcs hm

/-- C7 counterexample: with one numeric column and one string column, a
declared numeric `min` bound on the string column makes the comparison raise;
`validate_synthetic_data` aborts with the error instead of producing a report
in which only that column's statistic fields are absent. -/
theorem C7_counterexample :
    validate_synthetic_data
        [("a", ColData.numeric [(1:ℚ)]), ("b", ColData.strings [pyStr "x"])]
        [("a", ColData.numeric [(1:ℚ)]), ("b", ColData.strings [pyStr "x"])]
        [("b", ⟨Option.some (0:ℚ), Option.none⟩)]
      = Except.error "TypeError" := by rfl

theorem C7_per_column_failure_aborts_whole_report_witness :
    ∃ e, validate_synthetic_data [("b", ColData.strings [pyStr "y"])]
        [("b", ColData.strings [pyStr "y"])]
        [("b", ⟨Option.some (2:ℚ), Option.none⟩)] = Except.error e :=
  C7_per_column_failure_aborts_whole_report.2
    [("b", ColData.strings [pyStr "y"])] [("b", ColData.strings [pyStr "y"])]
    [("b", ⟨Option.some (2:ℚ), Option.none⟩)] "b" (ColData.strings [pyStr "y"])
    [pyStr "y"] ⟨Option.some (2:ℚ), Option.none⟩ (2:ℚ)
    (by decide) (by decide) (by decide) rfl

/-- C3: in a produced report, a column's `constraint_violations` equals the
number of synthetic values strictly below the declared `min` plus the number
strictly above the declared `max`, each addend independently `0` when that
bound (or the whole constraint entry) is absent; and appending one synthetic
value adds exactly `1` per bound it violates. -/
theorem C3_constraint_violations_additive_and_monotone
    (orig syn : Frame) (cs : List (String × Constraint)) (name : String)
    (ocol : ColData) (vals : List ℚ) (r : List (String × ColReport))
    (hnd : (orig.map Prod.fst).Nodup)
    (hok : validate_synthetic_data orig syn cs = Except.ok r)
    (hmem : (name, ocol) ∈ orig)
    (hsyn : List.lookup name syn = Option.some (ColData.numeric vals)) :
    ∃ e, List.lookup name r = Option.some e
      ∧ e.constraint_violations
          = minViolations vals (List.lookup name cs)
              + maxViolations vals (List.lookup name cs)
      ∧ (List.lookup name cs = Option.none → e.constraint_violations = 0)
      ∧ ∀ v : ℚ,
          minViolations (vals ++ [v]) (List.lookup name cs)
              + maxViolations (vals ++ [v]) (List.lookup name cs)
            = e.constraint_violations
                + (if violatesMin (List.lookup name cs) v then 1 else 0)
                + (if violatesMax (List.lookup name cs) v then 1 else 0) := by
  obtain ⟨scol, e, h1, h2, h3⟩ := validateGo_ok_lookup syn cs orig r hnd hok name ocol hmem
  rw [hsyn] at h1
  injection h1 with h1
  subst h1
  rw [mkEntry_numeric ocol vals (List.lookup name cs)] at h2
  injection h2 with h2
  subst h2
  refine ⟨_, h3, rfl, ?_, ?_⟩
  · intro hnone
    simp [hnone, minViolations, maxViolations]
  · intro v
    cases hc : List.lookup name cs with
    | none => simp [minViolations, maxViolations, violatesMin, violatesMax]
    | some cc =>
      cases cc with
      | mk mn mx =>
        cases mn <;> cases mx <;>
          simp [minViolations, maxViolations, violatesMin, violatesMax,
            List.countP_append, List.countP_cons] <;> omega

/-- Original frame for the ``C3`` witness instantiation. -/
def origW3 : Frame := [("a", ColData.numeric [(1:ℚ)])]

/-- Synthetic frame for the ``C3`` witness instantiation. -/
def synW3 : Frame := [("a", ColData.numeric [(0:ℚ)])]

/-- Constraints for the ``C3`` witness instantiation. -/
def csW3 : List (String × Constraint) := [("a", ⟨Option.some (1:ℚ), Option.none⟩)]

/-- Report produced by the validator on the ``C3`` witness frames. -/
def repW3 : List (String × ColReport) :=
  [("a", ⟨pandasMean [(1:ℚ)], pandasMean [(0:ℚ)],
          sampleVariance [(1:ℚ)], sampleVariance [(0:ℚ)], 1⟩)]

theorem C3_constraint_violations_additive_and_monotone_witness :
    ∃ e, List.lookup "a" repW3 = Option.some e
      ∧ e.constraint_violations
          = minViolations [(0:ℚ)] (List.lookup "a" csW3)
              + maxViolations [(0:ℚ)] (List.lookup "a" csW3)
      ∧ (List.lookup "a" csW3 = Option.none → e.constraint_violations = 0)
      ∧ ∀ v : ℚ,
          minViolations ([(0:ℚ)] ++ [v]) (List.lookup "a" csW3)
              + maxViolations ([(0:ℚ)] ++ [v]) (List.lookup "a" csW3)
            = e.constraint_violations
                + (if violatesMin (List.lookup "a" csW3) v then 1 else 0)
                + (if violatesMax (List.lookup "a" csW3) v then 1 else 0) :=
  C3_constraint_violations_additive_and_monotone origW3 synW3 csW3 "a"
    (ColData.numeric [(1:ℚ)]) [(0:ℚ)] repW3 (by decide) rfl (by decide) rfl

theorem pandasMean_ne_none (xs : List ℚ) : pandasMean xs ≠ PyVal.none := by
  unfold pandasMean
  split <;> simp

theorem sampleVariance_ne_none (xs : List ℚ) : sampleVariance xs ≠ PyVal.none := by
  unfold sampleVariance
  split <;> simp

theorem statOf_ne_none_iff (f : List ℚ → PyVal) (hf : ∀ xs, f xs ≠ PyVal.none)
    (col : ColData) : (statOf f col ≠ PyVal.none) ↔ isNumericDtype col = true := by
  cases col with
  | numeric vs => simp [statOf, isNumericDtype, hf vs]
  | strings ss => simp [statOf, isNumericDtype]

/-- C9: in a produced report, a column's original (resp. synthetic) mean and
standard deviation are present exactly when the original (resp. synthetic)
column has numeric storage and are `None` otherwise (no coercion); and the
statistics labeled synthetic are computed over the synthetic column's values,
never the original's. -/
theorem C9_stats_presence_matches_dtype_and_source_column
    (orig syn : Frame) (cs : List (String × Constraint)) (name : String)
    (ocol scol : ColData) (r : List (String × ColReport))
    (hnd : (orig.map Prod.fst).Nodup)
    (hok : validate_synthetic_data orig syn cs = Except.ok r)
    (hmem : (name, ocol) ∈ orig)
    (hsyn : List.lookup name syn = Option.some scol) :
    ∃ e, List.lookup name r = Option.some e
      ∧ ((e.original_mean ≠ PyVal.none) ↔ isNumericDtype ocol = true)
      ∧ ((e.original_std ≠ PyVal.none) ↔ isNumericDtype ocol = true)
      ∧ ((e.synthetic_mean ≠ PyVal.none) ↔ isNumericDtype scol = true)
      ∧ ((e.synthetic_std ≠ PyVal.none) ↔ isNumericDtype scol = true)
      ∧ (∀ vs, ocol = ColData.numeric vs →
            e.original_mean = pandasMean vs ∧ e.original_std = sampleVariance vs)
      ∧ (∀ vs, scol = ColData.numeric vs →
            e.synthetic_mean = pandasMean vs ∧ e.synthetic_std = sampleVariance vs) := by
  obtain ⟨scol0, e, h1, h2, h3⟩ := validateGo_ok_lookup syn cs orig r hnd hok name ocol hmem
  rw [hsyn] at h1
  injection h1 with h1
  subst h1
  obtain ⟨hm1, hm2, hm3, hm4⟩ := mkEntry_ok_stats ocol scol (List.lookup name cs) e h2
  refine ⟨e, h3, ?_, ?_, ?_, ?_, ?_, ?_⟩
  · rw [hm1]; exact statOf_ne_none_iff pandasMean pandasMean_ne_none ocol
  · rw [hm3]; exact statOf_ne_none_iff sampleVariance sampleVariance_ne_none ocol
  · rw [hm2]; exact statOf_ne_none_iff pandasMean pandasMean_ne_none scol
  · rw [hm4]; exact statOf_ne_none_iff sampleVariance sampleVariance_ne_none scol
  · intro vs hv
    subst hv
    exact ⟨by rw [hm1]; rfl, by rw [hm3]; rfl⟩
  · intro vs hv
    subst hv
    exact ⟨by rw [hm2]; rfl, by rw [hm4]; rfl⟩

/-- Original frame for the ``C9`` witness instantiation. -/
def origW9 : Frame := [("n", ColData.numeric [(1:ℚ), (3:ℚ)])]

/-- Synthetic frame for the ``C9`` witness instantiation. -/
def synW9 : Frame := [("n", ColData.numeric [(2:ℚ), (2:ℚ)])]

/-- Report produced by the validator on the ``C9`` witness frames. -/
def repW9 : List (String × ColReport) :=
  [("n", ⟨pandasMean [(1:ℚ), (3:ℚ)], pandasMean [(2:ℚ), (2:ℚ)],
          sampleVariance [(1:ℚ), (3:ℚ)], sampleVariance [(2:ℚ), (2:ℚ)], 0⟩)]

theorem C9_stats_presence_matches_dtype_and_source_column_witness :
    ∃ e, List.lookup "n" repW9 = Option.some e
      ∧ ((e.original_mean ≠ PyVal.none) ↔ isNumericDtype (ColData.numeric [(1:ℚ), (3:ℚ)]) = true)
      ∧ ((e.original_std ≠ PyVal.none) ↔ isNumericDtype (ColData.numeric [(1:ℚ), (3:ℚ)]) = true)
      ∧ ((e.synthetic_mean ≠ PyVal.none) ↔ isNumericDtype (ColData.numeric [(2:ℚ), (2:ℚ)]) = true)
      ∧ ((e.synthetic_std ≠ PyVal.none) ↔ isNumericDtype (ColData.numeric [(2:ℚ), (2:ℚ)]) = true)
      ∧ (∀ vs, ColData.numeric [(1:ℚ), (3:ℚ)] = ColData.numeric vs →
            e.original_mean = pandasMean vs ∧ e.original_std = sampleVariance vs)
      ∧ (∀ vs, ColData.numeric [(2:ℚ), (2:ℚ)] = ColData.numeric vs →
            e.synthetic_mean = pandasMean vs ∧ e.synthetic_std = sampleVariance vs) :=
  C9_stats_presence_matches_dtype_and_source_column origW9 synW9 [] "n"
    (ColData.numeric [(1:ℚ), (3:ℚ)]) (ColData.numeric [(2:ℚ), (2:ℚ)]) repW9
    (by decide) rfl (by decide) rfl

theorem pyStartsWith_append (t rest0 : PyStr) :
    pyStartsWith (t ++ rest0) t = true := by
  simp only [pyStartsWith, decide_eq_true_eq]
  exact List.take_left t rest0

theorem pyEndsWith_append (x t : PyStr) :
    pyEndsWith (x ++ t) t = true := by
  simp only [pyEndsWith, decide_eq_true_eq]
  have hl : (x ++ t).length - t.length = x.length := by
    simp [List.length_append]
  rw [hl]
  exact List.drop_left x t

/-- C5 (amended): the online constraint extractor strips a leading and a
trailing code-fence marker from the service response (for any fenced response
whose opening fence line is newline-free, stripping recovers exactly the
enclosed body); and a response text that does not parse as well-formed JSON is
reported as invalid — `validate_json_format` returns `false` and the training
run that loads the constraints aborts with an error — rather than yielding an
empty (or partial) constraint mapping. -/
theorem C5_fence_stripping_and_invalid_json_is_error
    (rest0 body txt : PyStr) (hr : '\n' ∉ rest0) (hp : json_loads txt = Option.none) :
    stripFences ((fenceStr ++ rest0) ++ '\n' :: (body ++ '\n' :: fenceStr)) = body
    ∧ loadConstraints txt = Except.error "JSONDecodeError"
    ∧ validate_json_format txt = false := by
  refine ⟨?_, ?_, ?_⟩
  · have hnl : '\n' ∉ fenceStr ++ rest0 := by
      intro hm
      rcases List.mem_append.mp hm with h1 | h1
      · simp [fenceStr] at h1
      · exact hr h1
    have hstart : pyStartsWith ((fenceStr ++ rest0) ++ '\n' :: (body ++ '\n' :: fenceStr)) fenceStr
        = true := by
      have : (fenceStr ++ rest0) ++ '\n' :: (body ++ '\n' :: fenceStr)
          = fenceStr ++ (rest0 ++ '\n' :: (body ++ '\n' :: fenceStr)) := by simp
      rw [this]
      exact pyStartsWith_append fenceStr _
    have hafter : afterFirstNl ((fenceStr ++ rest0) ++ '\n' :: (body ++ '\n' :: fenceStr))
        = Option.some (body ++ '\n' :: fenceStr) :=
      afterFirstNl_append (fenceStr ++ rest0) (body ++ '\n' :: fenceStr) hnl
    have hend : pyEndsWith (body ++ '\n' :: fenceStr) fenceStr = true := by
      have : body ++ '\n' :: fenceStr = (body ++ ['\n']) ++ fenceStr := by simp
      rw [this]
      exact pyEndsWith_append (body ++ ['\n']) fenceStr
    have hbefore : beforeLastNl (body ++ '\n' :: fenceStr) = Option.some body :=
      beforeLastNl_append body fenceStr (by simp [fenceStr])
    simp only [stripFences, hstart, if_pos rfl, hafter, Option.getD_some, hend, hbefore]
    simp [hend, hbefore]
  · simp only [loadConstraints, hp]
  · simp only [validate_json_format, hp, Option.isSome_none]

/-- C5 counterexample: on the non-JSON response text `"not json"`, the loaded
constraint mapping is not the empty mapping — `json.loads` raises and the
training run aborts with an error, so no (empty or otherwise) constraint
mapping results, contrary to the claim. -/
theorem C5_counterexample :
    loadConstraints (pyStr "not json") ≠ Except.ok (Json.obj []) := by
  intro h
  have h0 : loadConstraints (pyStr "not json") = Except.error "JSONDecodeError" := rfl
  rw [h0] at h
  exact Except.noConfusion h

theorem C5_fence_stripping_and_invalid_json_is_error_witness :
    stripFences ((fenceStr ++ pyStr "json") ++ '\n' :: (pyStr "not json" ++ '\n' :: fenceStr))
      = pyStr "not json"
    ∧ loadConstraints (pyStr "not json") = Except.error "JSONDecodeError"
    ∧ validate_json_format (pyStr "not json") = false :=
  C5_fence_stripping_and_invalid_json_is_error (pyStr "json") (pyStr "not json")
    (pyStr "not json") (by decide) rfl

/-- SDV semantic column types relevant to the handlers. -/
inductive SdType where
  | categorical
  | numerical
  | datetime
  | boolean
  | id
  | unknown
deriving DecidableEq

/-- The four options offered by the per-column type selectbox
(`src/add2.py:298`). -/
inductive UserColType where
  | categorical
  | numerical
  | datetime
  | boolean
deriving DecidableEq

/-- The SDV sdtype a user selection maps to. -/
def UserColType.toSd : UserColType → SdType
  | UserColType.categorical => SdType.categorical
  | UserColType.numerical => SdType.numerical
  | UserColType.datetime => SdType.datetime
  | UserColType.boolean => SdType.boolean

/-- Source call `metadata.update_column(column, sdtype=v)`: metadata modelled as a total
assignment of sdtypes to column names. -/
def updateColumn (m : String → SdType) (k : String) (v : SdType) : String → SdType :=
  fun x => if x = k then v else m x

/-- Whether every value of a column is distinct, i.e.
`len(data[col].unique()) == len(data)` (`src/add2.py:313`). -/
def ColData.nodupVals : ColData → Bool
  | ColData.numeric vs => decide vs.Nodup
  | ColData.strings ss => decide ss.Nodup

/-- Source test `len(data[c].unique()) == len(data)` looked up in the frame; on a column
name absent from the frame the source would raise `KeyError` (the id column
is chosen from the frame's own columns, so the theorems always supply a
member). -/
def colValsNodup (df : Frame) (c : String) : Bool :=
  match List.lookup c df with
  | Option.some cd => cd.nodupVals
  | Option.none => false

/-- The `column_types` dict built by the configuration section
(`src/add2.py:295-300`): one user-selected type per column, skipping the
chosen id column (`if column != id_column or id_column == 'None'`). -/
def configColumnTypes (df : Frame) (idCol : Option String) (sel : String → UserColType) :
    List (String × SdType) :=
  df.filterMap (fun p =>
    if idCol = Option.some p.1 then Option.none
    else Option.some (p.1, (sel p.1).toSd))

/-- The Apply Data Configuration button handler (`src/add2.py:307-322`):
starting from the auto-detected metadata `baseMeta`
(`Metadata.detect_from_dataframes`, an external collaborator, hence a
parameter), overwrite each non-id column with its selected type, then mark
the chosen id column as `id` only when all its values are distinct — on
duplicates the handler emits a warning and leaves that column's sdtype
untouched (unlike the parallel, never-called `create_metadata` helper at
`src/add2.py:128-152`, which announces and applies a `numerical` fallback).
Returns the final metadata and whether the id designation was applied. -/
def applyDataConfiguration (baseMeta : String → SdType) (df : Frame)
    (idCol : Option String) (sel : String → UserColType) : (String → SdType) × Bool :=
  let m1 := (configColumnTypes df idCol sel).foldl
    (fun m p => updateColumn m p.1 p.2) baseMeta
  match idCol with
  | Option.none => (m1, false)
  | Option.some c =>
    if colValsNodup df c then (updateColumn m1 c SdType.id, true) else (m1, false)

/-- Streamlit `st.success` / `st.warning` / `st.info` messages attached to a metadata
update. -/
structure MetaUpdate where
  sdtype : SdType
  messages : List String

/-- The id-column branch of the (never-called) `create_metadata` helper
(`src/add2.py:135-142`): on all-distinct values the column becomes `id` with
a success message; on duplicates it is *announced* (warning and info
messages) and set to `numerical`. -/
def create_metadata_id_step (cd : ColData) : MetaUpdate :=
  if cd.nodupVals then
    ⟨SdType.id, ["success: set as primary key - all values are unique"]⟩
  else
    ⟨SdType.numerical,
     ["warning: contains duplicate values and cannot be used as a primary key",
      "info: Treating it as a regular numerical column instead"]⟩

theorem foldl_updateColumn_not_mem (l : List (String × SdType)) :
    ∀ (m : String → SdType) (k : String), (∀ p ∈ l, p.1 ≠ k) →
      (l.foldl (fun m p => updateColumn m p.1 p.2) m) k = m k := by
  induction l with
  | nil => intro m k _; rfl
  | cons p rest ih =>
    intro m k h
    have hp : p.1 ≠ k := h p (List.mem_cons_self p rest)
    have hr : ∀ q ∈ rest, q.1 ≠ k := fun q hq => h q (List.mem_cons_of_mem p hq)
    simp only [List.foldl_cons, ih (updateColumn m p.1 p.2) k hr]
    have hk : k ≠ p.1 := Ne.symm hp
    simp [updateColumn, hk]

theorem configColumnTypes_key_ne_id (df : Frame) (c : String) (sel : String → UserColType) :
    ∀ p ∈ configColumnTypes df (Option.some c) sel, p.1 ≠ c := by
  intro p hp
  simp only [configColumnTypes, List.mem_filterMap] at hp
  obtain ⟨q, hq, hqe⟩ := hp
  by_cases h : (Option.some c : Option String) = Option.some q.1
  · simp [h] at hqe
  · simp only [if_neg h] at hqe
    injection hqe with h1
    have hq1 : p.1 = q.1 := by rw [← h1]
    intro hc
    rw [hq1] at hc
    exact h (by rw [hc])

theorem lookup_eq_some_of_mem_of_nodup {β : Type} (c : String) (cd : β) :
    ∀ (df : List (String × β)), (df.map Prod.fst).Nodup → (c, cd) ∈ df →
      List.lookup c df = Option.some cd := by
  intro df
  induction df with
  | nil => intro _ h; cases h
  | cons p rest ih =>
    intro hnd hmem
    obtain ⟨k, v⟩ := p
    rcases List.mem_cons.mp hmem with heq | hmem2
    · injection heq with h1 h2
      subst h1; subst h2
      simp [List.lookup]
    · have hk : c ≠ k := by
        intro hc
        apply (List.nodup_cons.mp hnd).1
        have h1 : c ∈ rest.map Prod.fst := List.mem_map_of_mem Prod.fst hmem2
        rwa [hc] at h1
      have := ih (List.nodup_cons.mp hnd).2 hmem2
      simpa [List.lookup, beq_eq_false_iff_ne.mpr hk] using this

/-- C6: the Apply Data Configuration handler marks the chosen candidate
column as an identifier in the metadata iff all its values are distinct
(given that the external auto-detection did not already label it `id`); on a
duplicate the designation is dropped and the column's sdtype is left exactly
as auto-detected — never silently promoted to another type; and the parallel
`create_metadata` helper likewise assigns `id` iff the values are distinct,
its `numerical` fallback on duplicates being announced by non-empty warning
and info messages rather than applied silently. -/
theorem C6_id_column_iff_all_values_distinct
    (baseMeta : String → SdType) (df : Frame) (sel : String → UserColType)
    (c : String) (cd cd2 : ColData)
    (hnd : (df.map Prod.fst).Nodup) (hmem : (c, cd) ∈ df)
    (hbase : baseMeta c ≠ SdType.id) :
    ((applyDataConfiguration baseMeta df (Option.some c) sel).1 c = SdType.id
        ↔ cd.nodupVals = true)
    ∧ ((applyDataConfiguration baseMeta df (Option.some c) sel).2 = cd.nodupVals)
    ∧ (cd.nodupVals = false →
        (applyDataConfiguration baseMeta df (Option.some c) sel).1 c = baseMeta c)
    ∧ ((create_metadata_id_step cd2).sdtype = SdType.id ↔ cd2.nodupVals = true)
    ∧ (cd2.nodupVals = false →
        (create_metadata_id_step cd2).sdtype = SdType.numerical
          ∧ (create_metadata_id_step cd2).messages ≠ []) := by
  have hlook : List.lookup c df = Option.some cd :=
    lookup_eq_some_of_mem_of_nodup c cd df hnd hmem
  have hval : colValsNodup df c = cd.nodupVals := by
    simp [colValsNodup, hlook]
  have hm1 : ((configColumnTypes df (Option.some c) sel).foldl
      (fun m p => updateColumn m p.1 p.2) baseMeta) c = baseMeta c :=
    foldl_updateColumn_not_mem (configColumnTypes df (Option.some c) sel) baseMeta c
      (configColumnTypes_key_ne_id df c sel)
  refine ⟨?_, ?_, ?_, ?_, ?_⟩
  · constructor
    · intro h
      by_contra hdup
      have hdup2 : cd.nodupVals = false := Bool.eq_false_iff.mpr hdup
      simp only [applyDataConfiguration, hval, hdup2, Bool.false_eq_true, if_false] at h
      rw [hm1] at h
      exact hbase h
    · intro h
      simp only [applyDataConfiguration, hval, h, if_true]
      simp [updateColumn]
  · by_cases h : cd.nodupVals = true
    · simp [applyDataConfiguration, hval, h]
    · have h2 : cd.nodupVals = false := Bool.eq_false_iff.mpr h
      simp [applyDataConfiguration, hval, h2]
  · intro h
    simp only [applyDataConfiguration, hval, h, Bool.false_eq_true, if_false]
    exact hm1
  · unfold create_metadata_id_step
    by_cases h : cd2.nodupVals = true
    · simp [h]
    · have h2 : cd2.nodupVals = false := Bool.eq_false_iff.mpr h
      simp [h2]
  · intro h
    unfold create_metadata_id_step
    simp [h]

/-- Dataframe for the ``C6`` witness instantiation. -/
def dfW6 : Frame := [("id", ColData.numeric [(1:ℚ), (2:ℚ)])]

/-- Auto-detected metadata for the ``C6`` witness instantiation. -/
def baseMetaW6 : String → SdType := fun _ => SdType.unknown

/-- User type selections for the ``C6`` witness instantiation. -/
def selW6 : String → UserColType := fun _ => UserColType.categorical

theorem C6_id_column_iff_all_values_distinct_witness :
    ((applyDataConfiguration baseMetaW6 dfW6 (Option.some "id") selW6).1 "id" = SdType.id
        ↔ (ColData.numeric [(1:ℚ), (2:ℚ)]).nodupVals = true)
    ∧ ((applyDataConfiguration baseMetaW6 dfW6 (Option.some "id") selW6).2
        = (ColData.numeric [(1:ℚ), (2:ℚ)]).nodupVals)
    ∧ ((ColData.numeric [(1:ℚ), (2:ℚ)]).nodupVals = false →
        (applyDataConfiguration baseMetaW6 dfW6 (Option.some "id") selW6).1 "id"
          = baseMetaW6 "id")
    ∧ ((create_metadata_id_step (ColData.numeric [(1:ℚ), (1:ℚ)])).sdtype = SdType.id
        ↔ (ColData.numeric [(1:ℚ), (1:ℚ)]).nodupVals = true)
    ∧ ((ColData.numeric [(1:ℚ), (1:ℚ)]).nodupVals = false →
        (create_metadata_id_step (ColData.numeric [(1:ℚ), (1:ℚ)])).sdtype = SdType.numerical
          ∧ (create_metadata_id_step (ColData.numeric [(1:ℚ), (1:ℚ)])).messages ≠ []) :=
  C6_id_column_iff_all_values_distinct baseMetaW6 dfW6 selW6 "id"
    (ColData.numeric [(1:ℚ), (2:ℚ)]) (ColData.numeric [(1:ℚ), (1:ℚ)])
    (by decide) (by decide) (by decide)

/-- The hyperparameter dict `gan_params` assembled by the UI
(`src/add2.py:459-466`); all six keys are always present. -/
structure GanParams where
  epochs : ℕ
  batch_size : ℕ
  learning_rate : ℚ
  generator_dim : List ℕ
  discriminator_dim : List ℕ
  pac : ℕ
deriving DecidableEq

/-- A constructed SDV synthesizer, recording exactly which constructor was
invoked and with which hyperparameters (the `fit` call that follows is the
external trainer's side and out of scope). -/
inductive Synthesizer where
  | CTGANSynthesizer (epochs batch_size : ℕ) (generator_dim discriminator_dim : List ℕ)
      (generator_lr discriminator_lr : ℚ) (pac : ℕ)
  | TVAESynthesizer (epochs batch_size : ℕ)
  | CopulaGANSynthesizer (epochs batch_size : ℕ) (generator_dim discriminator_dim : List ℕ)
      (generator_lr discriminator_lr : ℚ) (pac : ℕ)
deriving DecidableEq

/-- Source `train_synthesizer` (`src/add2.py:155-192`): dispatch on the model name;
CTGAN and CopulaGAN receive epochs, batch size, generator/discriminator
dimensions, the learning rate (for both generator and discriminator) and
`pac`; TVAE receives only epochs and batch size; any other name shows
`st.error("Invalid model selection")` and returns `None` instead of
raising. -/
def train_synthesizer (model_choice : String) (params : GanParams) : Option Synthesizer :=
  if model_choice = "CTGAN" then
    Option.some (Synthesizer.CTGANSynthesizer params.epochs params.batch_size
      params.generator_dim params.discriminator_dim
      params.learning_rate params.learning_rate params.pac)
  else if model_choice = "TVAE" then
    Option.some (Synthesizer.TVAESynthesizer params.epochs params.batch_size)
  else if model_choice = "CopulaGAN" then
    Option.some (Synthesizer.CopulaGANSynthesizer params.epochs params.batch_size
      params.generator_dim params.discriminator_dim
      params.learning_rate params.learning_rate params.pac)
  else
    Option.none

/-- C8: the trainer adapter accepts exactly CTGAN, TVAE and CopulaGAN — all
three receive epochs and batch size, CTGAN and CopulaGAN additionally the
generator/discriminator dimensions, the learning rate (used for both
generator and discriminator) and `pac`, while TVAE does not — and every other
model-kind name yields a reported configuration error result (`None` after
`st.error`) rather than an exception. -/
theorem C8_three_model_kinds_and_their_parameters (p : GanParams) :
    train_synthesizer "CTGAN" p
        = Option.some (Synthesizer.CTGANSynthesizer p.epochs p.batch_size
            p.generator_dim p.discriminator_dim p.learning_rate p.learning_rate p.pac)
    ∧ train_synthesizer "TVAE" p
        = Option.some (Synthesizer.TVAESynthesizer p.epochs p.batch_size)
    ∧ train_synthesizer "CopulaGAN" p
        = Option.some (Synthesizer.CopulaGANSynthesizer p.epochs p.batch_size
            p.generator_dim p.discriminator_dim p.learning_rate p.learning_rate p.pac)
    ∧ ∀ m : String, m ≠ "CTGAN" → m ≠ "TVAE" → m ≠ "CopulaGAN" →
        train_synthesizer m p = Option.none := by
  refine ⟨rfl, rfl, rfl, ?_⟩
  intro m h1 h2 h3
  simp [train_synthesizer, h1, h2, h3]

/-- Hyperparameters for the ``C8`` witness instantiation (the UI defaults). -/
def paramsW8 : GanParams := ⟨500, 250, (5:ℚ)/10000, [250, 250, 250], [250, 250, 250], 5⟩

theorem C8_three_model_kinds_and_their_parameters_witness :
    train_synthesizer "GPT2" paramsW8 = Option.none :=
  (C8_three_model_kinds_and_their_parameters paramsW8).2.2.2 "GPT2"
    (by decide) (by decide) (by decide)
